import Mathlib

/-!
Shallow embedding of the gmail-spam-cleaner core (scanner, scorer, ranking,
interactive cleanup, trash batching, scan cache) and proofs of the spec claims.
Scores and weights are embedded as exact rationals.
-/

namespace GmailSpamCleaner

/-! ## Data model (models.py) -/

/-- MessageMeta from models.py: metadata extracted from a single message. -/
structure MessageMeta where
  message_id : String
  sender : String
  sender_email : String
  subject : String
  labels : List String
  has_list_unsubscribe : Bool
  precedence : String
  date : String
deriving DecidableEq, Inhabited

/-- SenderProfile from models.py: aggregated profile for a single sender. -/
structure SenderProfile where
  email : String
  name : String
  message_count : Nat
  messages : List MessageMeta
  score : ℚ
  sample_subjects : List String
deriving DecidableEq, Inhabited

/-- ScanResult from models.py: the result of one mailbox scan.  The Python
dict (insertion ordered, unique keys) is embedded as an association list. -/
structure ScanResult where
  total_messages : Nat
  senders : List (String × SenderProfile)
  scan_date : String
  query : String
deriving DecidableEq, Inhabited

/-! ## Constants (constants.py) -/

def WEIGHT_LIST_UNSUBSCRIBE : ℚ := 40/100

def WEIGHT_SENDER_PATTERN : ℚ := 20/100

def WEIGHT_PRECEDENCE_BULK : ℚ := 15/100

def WEIGHT_HIGH_VOLUME : ℚ := 15/100

def WEIGHT_CATEGORY_PROMOTIONS : ℚ := 10/100

def SCORE_NEWSLETTER : ℚ := 7/10

def SCORE_LIKELY_NEWSLETTER : ℚ := 5/10

def SCORE_UNCERTAIN : ℚ := 3/10

def HIGH_VOLUME_THRESHOLD : Nat := 10

def TRASH_BATCH_SIZE : Nat := 1000

def SAMPLE_SUBJECTS_LIMIT : Nat := 5

def AUTOMATED_SENDER_PATTERNS : List String :=
  ["noreply@", "no-reply@", "newsletter@", "newsletters@", "notifications@",
   "notification@", "info@", "mailer@", "marketing@", "news@", "updates@",
   "update@", "do-not-reply@", "donotreply@", "alert@", "alerts@", "digest@",
   "hello@", "support@", "team@", "mail@", "bounce@", "auto@"]

/-! ## Character-level models of the Python string primitives

The Substring-based Lean string functions are well-founded recursions that
a proof checker cannot evaluate, so the Python string operations used by
the code (lower, startswith, strip, split) are modelled structurally on
the character list of the string. -/

/-- Python-style strip of characters satisfying p from both ends. -/
def pyStrip (s : String) (p : Char → Bool) : String :=
  ⟨((s.data.dropWhile p).reverse.dropWhile p).reverse⟩

/-- Python str.isspace (Unicode 14.0): the character set str.strip() with no
argument strips — tab through carriage return, the four ASCII information
separators 0x1C-0x1F, space, next line 0x85, no-break space 0xA0, ogham
space mark 0x1680, the general punctuation spaces 0x2000-0x200A, line and
paragraph separators 0x2028-0x2029, narrow no-break space 0x202F, medium
mathematical space 0x205F, and ideographic space 0x3000. -/
def pyStrIsSpace (c : Char) : Bool :=
  decide ((9 ≤ c.toNat ∧ c.toNat ≤ 13) ∨ (28 ≤ c.toNat ∧ c.toNat ≤ 31) ∨
    c.toNat = 32 ∨ c.toNat = 133 ∨ c.toNat = 160 ∨ c.toNat = 5760 ∨
    (8192 ≤ c.toNat ∧ c.toNat ≤ 8202) ∨ c.toNat = 8232 ∨ c.toNat = 8233 ∨
    c.toNat = 8239 ∨ c.toNat = 8287 ∨ c.toNat = 12288)

/-- The surrounding whitespace int() itself accepts: the str.isspace set
without the four ASCII information separators 0x1C-0x1F (which int()
rejects although str.strip() removes them). -/
def pyIntIsSpace (c : Char) : Bool :=
  pyStrIsSpace c && !(decide (28 ≤ c.toNat ∧ c.toNat ≤ 31))

/-- Python str.strip() (no argument): strip str.isspace characters from
both ends. -/
def pyTrim (s : String) : String :=
  pyStrip s pyStrIsSpace

/-- Python str.lower() (ASCII case, which covers every string the code
compares). -/
def lowerString (s : String) : String :=
  ⟨s.data.map Char.toLower⟩

/-- Python str.startswith. -/
def pyStartsWith (s pre : String) : Bool :=
  pre.data.isPrefixOf s.data

/-- Python str.split(sep) for a one-character separator, on char lists. -/
def splitOnChar (l : List Char) (c : Char) : List (List Char) :=
  match l with
  | [] => [[]]
  | x :: xs =>
    if x == c then [] :: splitOnChar xs c
    else
      match splitOnChar xs c with
      | [] => [[x]]
      | h :: t => (x :: h) :: t

/-! ## Scoring engine (scorer.py) -/

/-- Signal 1 of calculate_score: any message has has_list_unsubscribe. -/
def signalUnsubscribe (profile : SenderProfile) : Bool :=
  profile.messages.any (fun m => m.has_list_unsubscribe)

/-- Signal 2 of calculate_score: the lowercased email starts with one of the
automated sender patterns. -/
def signalPattern (profile : SenderProfile) : Bool :=
  AUTOMATED_SENDER_PATTERNS.any (fun pattern => pyStartsWith (lowerString profile.email) pattern)

/-- Signal 3 of calculate_score: any message has lowercased precedence
"bulk" or "list". -/
def signalBulk (profile : SenderProfile) : Bool :=
  profile.messages.any
    (fun m => lowerString m.precedence == "bulk" || lowerString m.precedence == "list")

/-- Signal 4 of calculate_score: message_count is at least HIGH_VOLUME_THRESHOLD. -/
def signalVolume (profile : SenderProfile) : Bool :=
  decide (HIGH_VOLUME_THRESHOLD ≤ profile.message_count)

/-- Signal 5 of calculate_score: any message's labels contain CATEGORY_PROMOTIONS. -/
def signalPromotions (profile : SenderProfile) : Bool :=
  profile.messages.any (fun m => m.labels.contains "CATEGORY_PROMOTIONS")

/-- calculate_score from scorer.py: sequential accumulation of the five
weighted signals, clamped to at most 1.0. -/
def calculate_score (profile : SenderProfile) : ℚ :=
  let total : ℚ := 0
  let total := if signalUnsubscribe profile then total + WEIGHT_LIST_UNSUBSCRIBE else total
  let total := if signalPattern profile then total + WEIGHT_SENDER_PATTERN else total
  let total := if signalBulk profile then total + WEIGHT_PRECEDENCE_BULK else total
  let total := if signalVolume profile then total + WEIGHT_HIGH_VOLUME else total
  let total := if signalPromotions profile then total + WEIGHT_CATEGORY_PROMOTIONS else total
  min total 1

/-- classify_sender from scorer.py. -/
def classify_sender (score : ℚ) : String :=
  if SCORE_NEWSLETTER ≤ score then "newsletter"
  else if SCORE_LIKELY_NEWSLETTER ≤ score then "likely_newsletter"
  else if SCORE_UNCERTAIN ≤ score then "uncertain"
  else "personal"

/-- Abstract form of the accumulated score as a function of the five
signal booleans only. -/
def scoreFormula (b1 b2 b3 b4 b5 : Bool) : ℚ :=
  min ((if b1 then WEIGHT_LIST_UNSUBSCRIBE else 0) +
       (if b2 then WEIGHT_SENDER_PATTERN else 0) +
       (if b3 then WEIGHT_PRECEDENCE_BULK else 0) +
       (if b4 then WEIGHT_HIGH_VOLUME else 0) +
       (if b5 then WEIGHT_CATEGORY_PROMOTIONS else 0)) 1

theorem calculate_score_eq_formula (p : SenderProfile) :
    calculate_score p =
      scoreFormula (signalUnsubscribe p) (signalPattern p) (signalBulk p)
        (signalVolume p) (signalPromotions p) := by
  unfold calculate_score scoreFormula
  cases signalUnsubscribe p <;> cases signalPattern p <;> cases signalBulk p <;>
    cases signalVolume p <;> cases signalPromotions p <;> simp

theorem scoreFormula_nonneg (b1 b2 b3 b4 b5 : Bool) :
    0 ≤ scoreFormula b1 b2 b3 b4 b5 := by
  unfold scoreFormula WEIGHT_LIST_UNSUBSCRIBE WEIGHT_SENDER_PATTERN
    WEIGHT_PRECEDENCE_BULK WEIGHT_HIGH_VOLUME WEIGHT_CATEGORY_PROMOTIONS
  split_ifs <;> norm_num

theorem ite_weight_mono {b c : Bool} (w : ℚ) (hw : 0 ≤ w) (h : b = true → c = true) :
    (if b then w else 0) ≤ (if c then w else 0) := by
  cases b with
  | false => cases c <;> simp [hw]
  | true => rw [h rfl]

theorem scoreFormula_mono {b1 b2 b3 b4 b5 c1 c2 c3 c4 c5 : Bool}
    (h1 : b1 = true → c1 = true) (h2 : b2 = true → c2 = true)
    (h3 : b3 = true → c3 = true) (h4 : b4 = true → c4 = true)
    (h5 : b5 = true → c5 = true) :
    scoreFormula b1 b2 b3 b4 b5 ≤ scoreFormula c1 c2 c3 c4 c5 := by
  unfold scoreFormula
  refine min_le_min ?_ le_rfl
  have w1 : (0:ℚ) ≤ WEIGHT_LIST_UNSUBSCRIBE := by norm_num [WEIGHT_LIST_UNSUBSCRIBE]
  have w2 : (0:ℚ) ≤ WEIGHT_SENDER_PATTERN := by norm_num [WEIGHT_SENDER_PATTERN]
  have w3 : (0:ℚ) ≤ WEIGHT_PRECEDENCE_BULK := by norm_num [WEIGHT_PRECEDENCE_BULK]
  have w4 : (0:ℚ) ≤ WEIGHT_HIGH_VOLUME := by norm_num [WEIGHT_HIGH_VOLUME]
  have w5 : (0:ℚ) ≤ WEIGHT_CATEGORY_PROMOTIONS := by norm_num [WEIGHT_CATEGORY_PROMOTIONS]
  exact add_le_add (add_le_add (add_le_add (add_le_add
    (ite_weight_mono _ w1 h1) (ite_weight_mono _ w2 h2))
    (ite_weight_mono _ w3 h3)) (ite_weight_mono _ w4 h4)) (ite_weight_mono _ w5 h5)

theorem scoreFormula_all_five : scoreFormula true true true true true = 1 := by
  unfold scoreFormula WEIGHT_LIST_UNSUBSCRIBE WEIGHT_SENDER_PATTERN
    WEIGHT_PRECEDENCE_BULK WEIGHT_HIGH_VOLUME WEIGHT_CATEGORY_PROMOTIONS
  norm_num

theorem scoreFormula_only_unsubscribe :
    scoreFormula true false false false false = 40/100 := by
  unfold scoreFormula WEIGHT_LIST_UNSUBSCRIBE WEIGHT_SENDER_PATTERN
    WEIGHT_PRECEDENCE_BULK WEIGHT_HIGH_VOLUME WEIGHT_CATEGORY_PROMOTIONS
  norm_num

/-- C2: calculate_score is the clamped sum of the weights of the triggered
signals; it lies in [0,1], is monotone in the set of triggered signals,
equals 1 when all five signals trigger, and equals 0.40 when only the
list-unsubscribe signal triggers. -/
theorem claim_c2_calculate_score (p q : SenderProfile)
    (h1 : signalUnsubscribe p = true → signalUnsubscribe q = true)
    (h2 : signalPattern p = true → signalPattern q = true)
    (h3 : signalBulk p = true → signalBulk q = true)
    (h4 : signalVolume p = true → signalVolume q = true)
    (h5 : signalPromotions p = true → signalPromotions q = true) :
    calculate_score p =
        min ((if signalUnsubscribe p then (40 : ℚ)/100 else 0) +
             (if signalPattern p then (20 : ℚ)/100 else 0) +
             (if signalBulk p then (15 : ℚ)/100 else 0) +
             (if signalVolume p then (15 : ℚ)/100 else 0) +
             (if signalPromotions p then (10 : ℚ)/100 else 0)) 1 ∧
      0 ≤ calculate_score p ∧ calculate_score p ≤ 1 ∧
      calculate_score p ≤ calculate_score q ∧
      (signalUnsubscribe p = true ∧ signalPattern p = true ∧ signalBulk p = true ∧
          signalVolume p = true ∧ signalPromotions p = true →
        calculate_score p = 1) ∧
      (signalUnsubscribe p = true ∧ signalPattern p = false ∧ signalBulk p = false ∧
          signalVolume p = false ∧ signalPromotions p = false →
        calculate_score p = 40/100) := by
  rw [calculate_score_eq_formula p, calculate_score_eq_formula q]
  refine ⟨rfl, scoreFormula_nonneg _ _ _ _ _, min_le_right _ _,
    scoreFormula_mono h1 h2 h3 h4 h5, ?_, ?_⟩
  · rintro ⟨e1, e2, e3, e4, e5⟩
    rw [e1, e2, e3, e4, e5]
    exact scoreFormula_all_five
  · rintro ⟨e1, e2, e3, e4, e5⟩
    rw [e1, e2, e3, e4, e5]
    exact scoreFormula_only_unsubscribe

/-- Demo profile triggering only the list-unsubscribe signal. -/
def demoOnlyUnsub : SenderProfile :=
  { email := "alice@example.com", name := "Alice", message_count := 1,
    messages := [{ message_id := "m1", sender := "Alice <alice@example.com>",
                   sender_email := "alice@example.com", subject := "hi", labels := [],
                   has_list_unsubscribe := true, precedence := "", date := "" }],
    score := 0, sample_subjects := ["hi"] }

/-- Demo profile triggering all five signals. -/
def demoAllSignals : SenderProfile :=
  { email := "noreply@example.com", name := "", message_count := 15,
    messages := [{ message_id := "m2", sender := "<noreply@example.com>",
                   sender_email := "noreply@example.com", subject := "sale",
                   labels := ["CATEGORY_PROMOTIONS"], has_list_unsubscribe := true,
                   precedence := "bulk", date := "" }],
    score := 0, sample_subjects := ["sale"] }

/-- Witness for the C2 theorem at a demo profile. -/
theorem claim_c2_calculate_score_witness :
    (signalUnsubscribe demoOnlyUnsub = true → signalUnsubscribe demoOnlyUnsub = true) ∧
      (calculate_score demoOnlyUnsub =
          min ((if signalUnsubscribe demoOnlyUnsub then (40 : ℚ)/100 else 0) +
               (if signalPattern demoOnlyUnsub then (20 : ℚ)/100 else 0) +
               (if signalBulk demoOnlyUnsub then (15 : ℚ)/100 else 0) +
               (if signalVolume demoOnlyUnsub then (15 : ℚ)/100 else 0) +
               (if signalPromotions demoOnlyUnsub then (10 : ℚ)/100 else 0)) 1 ∧
        0 ≤ calculate_score demoOnlyUnsub ∧ calculate_score demoOnlyUnsub ≤ 1 ∧
        calculate_score demoOnlyUnsub ≤ calculate_score demoOnlyUnsub ∧
        (signalUnsubscribe demoOnlyUnsub = true ∧ signalPattern demoOnlyUnsub = true ∧
            signalBulk demoOnlyUnsub = true ∧ signalVolume demoOnlyUnsub = true ∧
            signalPromotions demoOnlyUnsub = true →
          calculate_score demoOnlyUnsub = 1) ∧
        (signalUnsubscribe demoOnlyUnsub = true ∧ signalPattern demoOnlyUnsub = false ∧
            signalBulk demoOnlyUnsub = false ∧ signalVolume demoOnlyUnsub = false ∧
            signalPromotions demoOnlyUnsub = false →
          calculate_score demoOnlyUnsub = 40/100)) :=
  ⟨fun h => h,
   claim_c2_calculate_score demoOnlyUnsub demoOnlyUnsub (fun h => h) (fun h => h)
     (fun h => h) (fun h => h) (fun h => h)⟩

/-! ## Classification bands (C5) -/

theorem classify_eq_newsletter_iff (s : ℚ) :
    classify_sender s = "newsletter" ↔ 7/10 ≤ s := by
  unfold classify_sender SCORE_NEWSLETTER SCORE_LIKELY_NEWSLETTER SCORE_UNCERTAIN
  split_ifs with h1 h2 h3
  · exact iff_of_true rfl h1
  · exact iff_of_false (by decide) h1
  · exact iff_of_false (by decide) h1
  · exact iff_of_false (by decide) h1

theorem classify_eq_likely_iff (s : ℚ) :
    classify_sender s = "likely_newsletter" ↔ 5/10 ≤ s ∧ s < 7/10 := by
  unfold classify_sender SCORE_NEWSLETTER SCORE_LIKELY_NEWSLETTER SCORE_UNCERTAIN
  split_ifs with h1 h2 h3
  · exact iff_of_false (by decide) (by rintro ⟨h5, h7⟩; linarith)
  · exact iff_of_true rfl ⟨h2, not_le.mp h1⟩
  · exact iff_of_false (by decide) (by rintro ⟨h5, h7⟩; exact h2 h5)
  · exact iff_of_false (by decide) (by rintro ⟨h5, h7⟩; exact h2 h5)

theorem classify_eq_uncertain_iff (s : ℚ) :
    classify_sender s = "uncertain" ↔ 3/10 ≤ s ∧ s < 5/10 := by
  unfold classify_sender SCORE_NEWSLETTER SCORE_LIKELY_NEWSLETTER SCORE_UNCERTAIN
  split_ifs with h1 h2 h3
  · exact iff_of_false (by decide) (by rintro ⟨h3, h5⟩; linarith)
  · exact iff_of_false (by decide) (by rintro ⟨h3, h5⟩; linarith)
  · exact iff_of_true rfl ⟨h3, not_le.mp h2⟩
  · exact iff_of_false (by decide) (by rintro ⟨hh, h5⟩; exact h3 hh)

theorem classify_eq_personal_iff (s : ℚ) :
    classify_sender s = "personal" ↔ s < 3/10 := by
  unfold classify_sender SCORE_NEWSLETTER SCORE_LIKELY_NEWSLETTER SCORE_UNCERTAIN
  split_ifs with h1 h2 h3
  · exact iff_of_false (by decide) (by intro h; linarith)
  · exact iff_of_false (by decide) (by intro h; linarith)
  · exact iff_of_false (by decide) (by intro h; linarith)
  · exact iff_of_true rfl (not_le.mp h3)

/-- C5: classify_sender partitions the score axis into four lower-inclusive
bands evaluated high to low, with the stated boundary values. -/
theorem claim_c5_classify_bands (s : ℚ) :
    (classify_sender s = "newsletter" ↔ 7/10 ≤ s) ∧
      (classify_sender s = "likely_newsletter" ↔ 5/10 ≤ s ∧ s < 7/10) ∧
      (classify_sender s = "uncertain" ↔ 3/10 ≤ s ∧ s < 5/10) ∧
      (classify_sender s = "personal" ↔ s < 3/10) ∧
      classify_sender (7/10) = "newsletter" ∧
      classify_sender (5/10) = "likely_newsletter" ∧
      classify_sender (3/10) = "uncertain" ∧
      classify_sender 0 = "personal" := by
  refine ⟨classify_eq_newsletter_iff s, classify_eq_likely_iff s,
    classify_eq_uncertain_iff s, classify_eq_personal_iff s, ?_, ?_, ?_, ?_⟩
  · rw [classify_eq_newsletter_iff]
  · rw [classify_eq_likely_iff]; norm_num
  · rw [classify_eq_uncertain_iff]; norm_num
  · rw [classify_eq_personal_iff]; norm_num

/-! ## Selection / ranking (display.py, cleaner.py, export.py)

Python's sorted/list.sort is a stable sort by the key
(_CLASS_ORDER.get(classify_sender(p.score), 3), -p.message_count);
it is embedded as insertionSort by the corresponding total preorder, which
is proved below to be sorted, a permutation of the filtered input, and
stable — the three properties that uniquely determine a stable sort. -/

/-- The _CLASS_ORDER.get(c, 3) lookup shared by the three ranking sites. -/
def classOrderOf (c : String) : Nat :=
  if c == "newsletter" then 0
  else if c == "likely_newsletter" then 1
  else if c == "uncertain" then 2
  else 3

/-- Sort key used by the three ranking sites. -/
def rankKey (p : SenderProfile) : Nat × Int :=
  (classOrderOf (classify_sender p.score), -(p.message_count : Int))

/-- Lexicographic comparison of rank keys. -/
def rankLe (p q : SenderProfile) : Prop :=
  (rankKey p).1 < (rankKey q).1 ∨
    ((rankKey p).1 = (rankKey q).1 ∧ (rankKey p).2 ≤ (rankKey q).2)

instance : DecidableRel rankLe := fun p q => by unfold rankLe; exact inferInstance

instance : IsTotal SenderProfile rankLe := by
  constructor
  intro a b
  unfold rankLe
  rcases lt_trichotomy (rankKey a).1 (rankKey b).1 with h | h | h
  · exact Or.inl (Or.inl h)
  · rcases le_total (rankKey a).2 (rankKey b).2 with h2 | h2
    · exact Or.inl (Or.inr ⟨h, h2⟩)
    · exact Or.inr (Or.inr ⟨h.symm, h2⟩)
  · exact Or.inr (Or.inl h)

instance : IsTrans SenderProfile rankLe := by
  constructor
  intro a b c hab hbc
  unfold rankLe at hab hbc ⊢
  rcases hab with h | ⟨he, hle⟩ <;> rcases hbc with h2 | ⟨he2, hle2⟩
  · exact Or.inl (lt_trans h h2)
  · exact Or.inl (he2 ▸ h)
  · exact Or.inl (he ▸ h2)
  · exact Or.inr ⟨he.trans he2, le_trans hle hle2⟩

theorem rankLe_of_key_eq {a b : SenderProfile} (h : rankKey a = rankKey b) : rankLe a b :=
  Or.inr ⟨congrArg Prod.fst h, le_of_eq (congrArg Prod.snd h)⟩

theorem key_ne_of_not_rankLe {a b : SenderProfile} (h : ¬ rankLe a b) :
    rankKey a ≠ rankKey b :=
  fun he => h (rankLe_of_key_eq he)

/-- The .values() view of the senders dict. -/
def sendersValues (senders : List (String × SenderProfile)) : List SenderProfile :=
  senders.map (fun kv => kv.2)

/-- Ranking in display_scan_results (display.py): filter by
score >= max(min_score, SCORE_UNCERTAIN), then stable sort by rankKey. -/
def display_ranked (scan_result : ScanResult) (min_score : ℚ) : List SenderProfile :=
  List.insertionSort rankLe
    ((sendersValues scan_result.senders).filter
      (fun p => decide (max min_score SCORE_UNCERTAIN ≤ p.score)))

/-- Candidate list in interactive_clean (cleaner.py): same filter and sort. -/
def interactive_candidates (scan_result : ScanResult) (min_score : ℚ) : List SenderProfile :=
  List.insertionSort rankLe
    ((sendersValues scan_result.senders).filter
      (fun p => decide (max min_score SCORE_UNCERTAIN ≤ p.score)))

/-- Ranking in export_scan (export.py): filter by score >= SCORE_UNCERTAIN,
then the same stable sort. -/
def export_ranked (scan_result : ScanResult) : List SenderProfile :=
  List.insertionSort rankLe
    ((sendersValues scan_result.senders).filter
      (fun p => decide (SCORE_UNCERTAIN ≤ p.score)))

theorem filter_key_orderedInsert (k : Nat × Int) (a : SenderProfile)
    (l : List SenderProfile) :
    (List.orderedInsert rankLe a l).filter (fun p => decide (rankKey p = k)) =
      (if rankKey a = k then [a] else []) ++
        l.filter (fun p => decide (rankKey p = k)) := by
  induction l with
  | nil =>
    simp only [List.orderedInsert]
    by_cases hk : rankKey a = k <;> simp [hk]
  | cons b l ih =>
    simp only [List.orderedInsert]
    by_cases hab : rankLe a b
    · rw [if_pos hab]
      by_cases hk : rankKey a = k <;> by_cases hbk : rankKey b = k <;>
        simp [List.filter_cons, hk, hbk]
    · rw [if_neg hab]
      have hne : rankKey a ≠ rankKey b := key_ne_of_not_rankLe hab
      by_cases hk : rankKey a = k
      · have hbk : rankKey b ≠ k := fun hb => hne (hk.trans hb.symm)
        simp [List.filter_cons, hk, hbk, ih]
      · by_cases hbk : rankKey b = k <;> simp [List.filter_cons, hk, hbk, ih]

theorem filter_key_insertionSort (k : Nat × Int) (l : List SenderProfile) :
    (List.insertionSort rankLe l).filter (fun p => decide (rankKey p = k)) =
      l.filter (fun p => decide (rankKey p = k)) := by
  induction l with
  | nil => rfl
  | cons a l ih =>
    simp only [List.insertionSort]
    rw [filter_key_orderedInsert, ih]
    by_cases hk : rankKey a = k <;> simp [List.filter_cons, hk]

/-- C6: the ranked candidate list keeps exactly the profiles with
score >= max(min_score, 0.3), never contains a personal-classified profile
even at min_score 0, is sorted ascending by classification rank then
descending by message count, and is stable: profiles with the same sort key
keep their filtered-input order. -/
theorem claim_c6_ranking (sr : ScanResult) (m : ℚ) :
    (interactive_candidates sr m).Perm
        ((sendersValues sr.senders).filter
          (fun p => decide (max m SCORE_UNCERTAIN ≤ p.score))) ∧
      List.Pairwise rankLe (interactive_candidates sr m) ∧
      (interactive_candidates sr 0).countP
        (fun p => classify_sender p.score == "personal") = 0 ∧
      (∀ k : Nat × Int,
        (interactive_candidates sr m).filter (fun p => decide (rankKey p = k)) =
          ((sendersValues sr.senders).filter
            (fun p => decide (max m SCORE_UNCERTAIN ≤ p.score))).filter
            (fun p => decide (rankKey p = k))) := by
  refine ⟨List.perm_insertionSort rankLe _, List.sorted_insertionSort rankLe _, ?_, ?_⟩
  · rw [List.countP_eq_zero]
    intro p hp
    have hmem : p ∈ (sendersValues sr.senders).filter
        (fun q => decide (max (0:ℚ) SCORE_UNCERTAIN ≤ q.score)) :=
      (List.mem_insertionSort rankLe).mp hp
    have hsc : max (0:ℚ) SCORE_UNCERTAIN ≤ p.score := by
      have := List.of_mem_filter hmem
      exact of_decide_eq_true this
    have h3 : (3:ℚ)/10 ≤ p.score := by
      have : SCORE_UNCERTAIN ≤ p.score := le_trans (le_max_right _ _) hsc
      simpa [SCORE_UNCERTAIN] using this
    have : classify_sender p.score ≠ "personal" := by
      rw [Ne, classify_eq_personal_iff]
      linarith
    simpa using this
  · intro k
    exact filter_key_insertionSort k _

/-- C7: the scan display, the interactive cleanup candidate list, and the
export routine produce the identical filtered sequence in the identical
order (export and default display use min_score 0, clamped to 0.3). -/
theorem claim_c7_ranking_consistency (sr : ScanResult) (m : ℚ) :
    display_ranked sr m = interactive_candidates sr m ∧
      export_ranked sr = display_ranked sr 0 := by
  constructor
  · rfl
  · unfold export_ranked display_ranked
    have hmax : max (0:ℚ) SCORE_UNCERTAIN = SCORE_UNCERTAIN :=
      max_eq_right (by norm_num [SCORE_UNCERTAIN])
    rw [hmax]

/-! ## Sender aggregation (scanner.py group_by_sender)

The Python dict (insertion ordered, unique keys, in-place value mutation)
is embedded as an association list with lookup, in-place update, and
append-on-new-key. -/

/-- Python str.strip(c): remove all leading and trailing occurrences of c. -/
def stripChar (s : String) (c : Char) : String :=
  pyStrip s (fun x => x == c)

/-- Name extraction for the first message of a sender (scanner.py line 21):
msg.sender.split("<")[0].strip().strip(double quote).strip(single quote)
when "<" occurs in the sender header, otherwise the empty string. -/
def initialName (msg : MessageMeta) : String :=
  if msg.sender.data.contains (Char.ofNat 60) then
    stripChar
      (stripChar (pyTrim ⟨(splitOnChar msg.sender.data (Char.ofNat 60)).headD []⟩)
        (Char.ofNat 34))
      (Char.ofNat 39)
  else ""

/-- The profile created on first sight of a sender
(SenderProfile(email=email, name=name) with dataclass defaults). -/
def emptyProfileFor (msg : MessageMeta) : SenderProfile :=
  { email := msg.sender_email, name := initialName msg, message_count := 0,
    messages := [], score := 0, sample_subjects := [] }

/-- Per-message profile mutation in the group_by_sender loop body. -/
def updateProfile (msg : MessageMeta) (p : SenderProfile) : SenderProfile :=
  { p with
    messages := p.messages ++ [msg],
    message_count := p.message_count + 1,
    sample_subjects :=
      if p.sample_subjects.length < SAMPLE_SUBJECTS_LIMIT ∧ msg.subject ≠ "" then
        p.sample_subjects ++ [msg.subject]
      else p.sample_subjects }

/-- Dict lookup on the association list (first matching key). -/
def dictLookup (d : List (String × SenderProfile)) (k : String) : Option SenderProfile :=
  match d with
  | [] => none
  | (k2, v) :: rest => if k2 = k then some v else dictLookup rest k

/-- Dict value mutation at a key (first matching entry, position kept). -/
def dictUpdate (d : List (String × SenderProfile)) (k : String)
    (f : SenderProfile → SenderProfile) : List (String × SenderProfile) :=
  match d with
  | [] => []
  | (k2, v) :: rest =>
    if k2 = k then (k2, f v) :: rest else (k2, v) :: dictUpdate rest k f

/-- One iteration of the group_by_sender loop. -/
def group_step (d : List (String × SenderProfile)) (msg : MessageMeta) :
    List (String × SenderProfile) :=
  let email := msg.sender_email
  let d2 := if (dictLookup d email).isNone then d ++ [(email, emptyProfileFor msg)] else d
  dictUpdate d2 email (updateProfile msg)

/-- group_by_sender from scanner.py. -/
def group_by_sender (messages : List MessageMeta) : List (String × SenderProfile) :=
  messages.foldl group_step []

/-- Messages stored under a key (empty when the key is absent). -/
def messagesAt (d : List (String × SenderProfile)) (e : String) : List MessageMeta :=
  match dictLookup d e with
  | some p => p.messages
  | none => []

theorem dictLookup_dictUpdate (d : List (String × SenderProfile)) (k q : String)
    (f : SenderProfile → SenderProfile) :
    dictLookup (dictUpdate d k f) q =
      if q = k then (dictLookup d k).map f else dictLookup d q := by
  induction d with
  | nil =>
    by_cases h : q = k <;> simp [dictUpdate, dictLookup, h]
  | cons kv rest ih =>
    obtain ⟨k2, v⟩ := kv
    by_cases h2 : k2 = k
    · subst h2
      by_cases hq : q = k2
      · subst hq; simp [dictUpdate, dictLookup]
      · simp [dictUpdate, dictLookup, hq, Ne.symm hq]
    · by_cases hq : q = k2
      · subst hq
        simp [dictUpdate, dictLookup, h2, Ne.symm h2]
      · simp [dictUpdate, dictLookup, h2, Ne.symm hq, ih]

theorem dictLookup_append (d : List (String × SenderProfile)) (k : String)
    (v : SenderProfile) (q : String) :
    dictLookup (d ++ [(k, v)]) q =
      match dictLookup d q with
      | some x => some x
      | none => if q = k then some v else none := by
  induction d with
  | nil =>
    by_cases h : q = k
    · subst h; simp [dictLookup]
    · simp [dictLookup, h, Ne.symm h]
  | cons kv rest ih =>
    obtain ⟨k2, v2⟩ := kv
    by_cases h2 : k2 = q <;> simp [dictLookup, h2, ih]

theorem dictLookup_group_step (d : List (String × SenderProfile)) (msg : MessageMeta)
    (e : String) :
    dictLookup (group_step d msg) e =
      if e = msg.sender_email then
        some (updateProfile msg
          ((dictLookup d msg.sender_email).getD (emptyProfileFor msg)))
      else dictLookup d e := by
  simp only [group_step]
  by_cases hnew : (dictLookup d msg.sender_email).isNone
  · rw [if_pos hnew, dictLookup_dictUpdate]
    rw [Option.isNone_iff_eq_none] at hnew
    by_cases he : e = msg.sender_email
    · rw [if_pos he, if_pos he, dictLookup_append, hnew]
      simp
    · rw [if_neg he, if_neg he, dictLookup_append]
      cases hde : dictLookup d e with
      | some x => simp
      | none => simp [he]
  · rw [if_neg hnew, dictLookup_dictUpdate]
    rw [Option.isNone_iff_eq_none] at hnew
    cases hde : dictLookup d msg.sender_email with
    | none => exact absurd hde hnew
    | some p => by_cases he : e = msg.sender_email <;> simp [he, hde]

theorem messagesAt_group_step (d : List (String × SenderProfile)) (msg : MessageMeta)
    (e : String) :
    messagesAt (group_step d msg) e =
      if e = msg.sender_email then messagesAt d e ++ [msg] else messagesAt d e := by
  unfold messagesAt
  rw [dictLookup_group_step]
  by_cases he : e = msg.sender_email
  · subst he
    cases hde : dictLookup d msg.sender_email with
    | none => simp [hde, updateProfile, emptyProfileFor]
    | some p => simp [hde, updateProfile]
  · simp [he]

/-- Shape invariant of every stored profile: message_count matches the
message list and sample_subjects is the 5-capped list of its messages'
non-empty subjects. -/
def ProfileShape (p : SenderProfile) : Prop :=
  p.message_count = p.messages.length ∧
    p.sample_subjects =
      ((p.messages.map (fun m => m.subject)).filter
        (fun s => decide (s ≠ ""))).take SAMPLE_SUBJECTS_LIMIT

theorem profileShape_empty (msg : MessageMeta) : ProfileShape (emptyProfileFor msg) := by
  constructor <;> simp [emptyProfileFor]

theorem profileShape_update (msg : MessageMeta) (p : SenderProfile)
    (h : ProfileShape p) : ProfileShape (updateProfile msg p) := by
  obtain ⟨hc, hs⟩ := h
  constructor
  · simp [updateProfile, hc]
  · show (if p.sample_subjects.length < SAMPLE_SUBJECTS_LIMIT ∧ msg.subject ≠ "" then
        p.sample_subjects ++ [msg.subject] else p.sample_subjects) = _
    rw [hs]
    simp only [updateProfile, List.map_append, List.filter_append, List.map_cons,
      List.map_nil]
    by_cases hsub : msg.subject = ""
    · simp [hsub, List.filter_cons, List.length_take]
    · have hfil : ([msg.subject].filter (fun s => decide (s ≠ ""))) = [msg.subject] := by
        simp [List.filter_cons, hsub]
      rw [hfil]
      set F := (p.messages.map (fun m => m.subject)).filter (fun s => decide (s ≠ ""))
      by_cases hlen : F.length < SAMPLE_SUBJECTS_LIMIT
      · have htF : F.take SAMPLE_SUBJECTS_LIMIT = F :=
          List.take_of_length_le (le_of_lt hlen)
        rw [htF]
        rw [if_pos ⟨by simpa [htF] using hlen, hsub⟩]
        rw [List.take_of_length_le (by simp; omega)]
      · have hge : SAMPLE_SUBJECTS_LIMIT ≤ F.length := le_of_not_lt hlen
        rw [List.take_append_of_le_length hge]
        rw [if_neg]
        rintro ⟨hl, -⟩
        rw [List.length_take] at hl
        omega

/-- Full invariant of the aggregation loop after processing a prefix. -/
def GoodDict (processed : List MessageMeta) (d : List (String × SenderProfile)) : Prop :=
  (∀ e : String, messagesAt d e = processed.filter (fun m => m.sender_email == e)) ∧
    (∀ e p, dictLookup d e = some p → ProfileShape p)

theorem goodDict_step (processed : List MessageMeta) (d : List (String × SenderProfile))
    (msg : MessageMeta) (h : GoodDict processed d) :
    GoodDict (processed ++ [msg]) (group_step d msg) := by
  obtain ⟨hmsg, hshape⟩ := h
  constructor
  · intro e
    rw [messagesAt_group_step, List.filter_append, hmsg]
    by_cases he : e = msg.sender_email
    · simp [List.filter_cons, he]
    · have : (msg.sender_email == e) = false := by
        simp [he]
        exact fun hh => he hh.symm
      simp [he, List.filter_cons, this]
  · intro e p hp
    rw [dictLookup_group_step] at hp
    by_cases he : e = msg.sender_email
    · rw [if_pos he] at hp
      injection hp with hp
      subst hp
      apply profileShape_update
      cases hde : dictLookup d msg.sender_email with
      | none => simpa [hde] using profileShape_empty msg
      | some q => simpa [hde] using hshape _ q hde
    · rw [if_neg he] at hp
      exact hshape e p hp

theorem goodDict_foldl (ms : List MessageMeta) :
    ∀ (processed : List MessageMeta) (d : List (String × SenderProfile)),
      GoodDict processed d → GoodDict (processed ++ ms) (ms.foldl group_step d) := by
  induction ms with
  | nil => intro processed d h; simpa using h
  | cons m ms ih =>
    intro processed d h
    have h2 := ih (processed ++ [m]) (group_step d m) (goodDict_step processed d m h)
    simpa using h2

theorem goodDict_group (messages : List MessageMeta) :
    GoodDict messages (group_by_sender messages) := by
  have hbase : GoodDict [] [] := by
    constructor
    · intro e; simp [messagesAt, dictLookup]
    · intro e p hp; simp [dictLookup] at hp
  simpa using goodDict_foldl messages [] [] hbase

/-- Total message count stored in the dict. -/
def sumCounts (d : List (String × SenderProfile)) : Nat :=
  (d.map (fun kv => kv.2.message_count)).sum

theorem sumCounts_dictUpdate (d : List (String × SenderProfile)) (k : String)
    (msg : MessageMeta) (h : (dictLookup d k).isSome) :
    sumCounts (dictUpdate d k (updateProfile msg)) = sumCounts d + 1 := by
  induction d with
  | nil => simp [dictLookup] at h
  | cons kv rest ih =>
    obtain ⟨k2, v⟩ := kv
    by_cases h2 : k2 = k
    · simp [dictUpdate, h2, sumCounts, updateProfile]
      omega
    · have hr : (dictLookup rest k).isSome := by
        simpa [dictLookup, h2] using h
      simp [dictUpdate, h2, sumCounts] at ih ⊢
      rw [ih hr]
      omega

theorem sumCounts_group_step (d : List (String × SenderProfile)) (msg : MessageMeta) :
    sumCounts (group_step d msg) = sumCounts d + 1 := by
  simp only [group_step]
  by_cases hnew : (dictLookup d msg.sender_email).isNone
  · rw [if_pos hnew]
    have hsome : (dictLookup (d ++ [(msg.sender_email, emptyProfileFor msg)])
        msg.sender_email).isSome := by
      rw [dictLookup_append, Option.isNone_iff_eq_none.mp hnew]
      simp
    rw [sumCounts_dictUpdate _ _ _ hsome]
    simp [sumCounts, emptyProfileFor]
  · rw [if_neg hnew]
    exact sumCounts_dictUpdate d _ msg (Option.isSome_iff_ne_none.mpr
      (fun hh => hnew (Option.isNone_iff_eq_none.mpr hh)))

theorem sumCounts_foldl (ms : List MessageMeta) :
    ∀ d : List (String × SenderProfile),
      sumCounts (ms.foldl group_step d) = sumCounts d + ms.length := by
  induction ms with
  | nil => intro d; simp
  | cons m ms ih =>
    intro d
    show sumCounts (ms.foldl group_step (group_step d m)) = _
    rw [ih, sumCounts_group_step]
    simp; omega

/-- C3: the aggregation preserves the total message count, routes every
message to the profile keyed by its exact sender_email, and maps the empty
input to the empty dict. -/
theorem claim_c3_group_by_sender (messages : List MessageMeta) :
    ((group_by_sender messages).map (fun kv => kv.2.message_count)).sum =
        messages.length ∧
      (∀ e : String, messagesAt (group_by_sender messages) e =
        messages.filter (fun m => m.sender_email == e)) ∧
      group_by_sender ([] : List MessageMeta) = [] := by
  refine ⟨?_, (goodDict_group messages).1, rfl⟩
  have := sumCounts_foldl messages []
  simpa [sumCounts, group_by_sender] using this

/-- C4: a grouped profile's sample_subjects is exactly the first
min(5, number of non-empty subjects) non-empty subjects of that sender's
messages, in arrival order, without deduplication. -/
theorem claim_c4_sample_subjects (messages : List MessageMeta) (e : String)
    (p : SenderProfile) (h : dictLookup (group_by_sender messages) e = some p) :
    p.sample_subjects =
        (((messages.filter (fun m => m.sender_email == e)).map (fun m => m.subject)).filter
          (fun s => decide (s ≠ ""))).take SAMPLE_SUBJECTS_LIMIT ∧
      p.sample_subjects.length =
        min SAMPLE_SUBJECTS_LIMIT
          (((messages.filter (fun m => m.sender_email == e)).map
            (fun m => m.subject)).filter (fun s => decide (s ≠ ""))).length := by
  obtain ⟨hmsg, hshape⟩ := goodDict_group messages
  have hpm : p.messages = messages.filter (fun m => m.sender_email == e) := by
    have := hmsg e
    rw [messagesAt, h] at this
    exact this
  obtain ⟨-, hs⟩ := hshape e p h
  rw [hpm] at hs
  refine ⟨hs, ?_⟩
  rw [hs, List.length_take]

/-- Demo message list: three messages from alice (one with an empty
subject) and one from bob. -/
def demoMessages : List MessageMeta :=
  [{ message_id := "m1", sender := "alice@example.com",
     sender_email := "alice@example.com", subject := "Hello", labels := [],
     has_list_unsubscribe := false, precedence := "", date := "" },
   { message_id := "m2", sender := "bob@example.com",
     sender_email := "bob@example.com", subject := "B1", labels := [],
     has_list_unsubscribe := false, precedence := "", date := "" },
   { message_id := "m3", sender := "alice@example.com",
     sender_email := "alice@example.com", subject := "", labels := [],
     has_list_unsubscribe := false, precedence := "", date := "" },
   { message_id := "m4", sender := "alice@example.com",
     sender_email := "alice@example.com", subject := "World", labels := [],
     has_list_unsubscribe := false, precedence := "", date := "" }]

/-- The profile group_by_sender builds for alice from demoMessages. -/
def demoAliceProfile : SenderProfile :=
  { email := "alice@example.com", name := "", message_count := 3,
    messages := [demoMessages.getD 0 default, demoMessages.getD 2 default,
                 demoMessages.getD 3 default],
    score := 0, sample_subjects := ["Hello", "World"] }

/-- Witness for the C4 theorem at the demo message list. -/
theorem claim_c4_sample_subjects_witness :
    dictLookup (group_by_sender demoMessages) "alice@example.com" = some demoAliceProfile ∧
      (demoAliceProfile.sample_subjects =
          (((demoMessages.filter (fun m => m.sender_email == "alice@example.com")).map
            (fun m => m.subject)).filter
              (fun s => decide (s ≠ ""))).take SAMPLE_SUBJECTS_LIMIT ∧
        demoAliceProfile.sample_subjects.length =
          min SAMPLE_SUBJECTS_LIMIT
            (((demoMessages.filter (fun m => m.sender_email == "alice@example.com")).map
              (fun m => m.subject)).filter (fun s => decide (s ≠ ""))).length) := by
  have h : dictLookup (group_by_sender demoMessages) "alice@example.com" =
      some demoAliceProfile := by decide
  exact ⟨h, claim_c4_sample_subjects demoMessages "alice@example.com" demoAliceProfile h⟩

/-! ## Interactive cleanup selection (cleaner.py interactive_clean) -/

/-- First code point of each run of ten consecutive Unicode 14.0 decimal
digits (category Nd; every Nd block is a contiguous run with decimal
values 0-9 in code point order).  These are exactly the digits Python
int() accepts. -/
def ND_DIGIT_RANGE_STARTS : List Nat :=
  [48, 1632, 1776, 1984, 2406, 2534, 2662, 2790, 2918, 3046, 3174, 3302,
   3430, 3558, 3664, 3792, 3872, 4160, 4240, 6112, 6160, 6470, 6608, 6784,
   6800, 6992, 7088, 7232, 7248, 42528, 43216, 43264, 43472, 43504, 43600,
   44016, 65296, 66720, 68912, 69734, 69872, 69942, 70096, 70384, 70736,
   70864, 71248, 71360, 71472, 71904, 72016, 72784, 73040, 73120, 92768,
   92864, 93008, 120782, 120792, 120802, 120812, 120822, 123200, 123632,
   125264, 130032]

/-- The decimal value of a Unicode decimal digit, none for any other
character. -/
def pyDigitVal (c : Char) : Option Nat :=
  match ND_DIGIT_RANGE_STARTS.find?
      (fun s => decide (s ≤ c.toNat ∧ c.toNat ≤ s + 9)) with
  | some s => some (c.toNat - s)
  | none => none

/-- Digits of an int() numeral after the first one: a single underscore
(PEP 515) is allowed only between two digits — never leading, trailing,
or doubled. -/
def pyDigitsRest : List Char → Nat → Option Nat
  | [], acc => some acc
  | c :: cs, acc =>
    if c = Char.ofNat 95 then
      match cs with
      | [] => none
      | c2 :: cs2 =>
        match pyDigitVal c2 with
        | some d => pyDigitsRest cs2 (acc * 10 + d)
        | none => none
    else
      match pyDigitVal c with
      | some d => pyDigitsRest cs (acc * 10 + d)
      | none => none

/-- Python int() on a base-10 string: optional surrounding whitespace
(int()'s own set), an optional single sign, then one or more Unicode
decimal digits with single underscores allowed between digits; anything
else raises ValueError, modelled as none. -/
def pyInt (s : String) : Option Int :=
  let t := (pyStrip s pyIntIsSpace).data
  match t with
  | [] => none
  | c :: cs =>
    let core : List Char × Bool :=
      if c = Char.ofNat 45 then (cs, true)
      else if c = Char.ofNat 43 then (cs, false)
      else (t, false)
    match core with
    | ([], _) => none
    | (d :: rest, neg) =>
      match pyDigitVal d with
      | some v =>
        (pyDigitsRest rest v).map (fun n => if neg then -(n : Int) else (n : Int))
      | none => none

/-- Evaluate f on every element left to right; the first failure aborts the
whole computation (the exception semantics of a list comprehension). -/
def mapOption {α β : Type} (f : α → Option β) : List α → Option (List β)
  | [] => some []
  | a :: l =>
    match f a with
    | none => none
    | some b => (mapOption f l).map (fun bs => b :: bs)

/-- The list comprehension [int(x.strip()) - 1 for x in selection.split(",")]:
each token is str.strip()-ped and handed to int(); none when any token
raises ValueError. -/
def parseIndices (selection : String) : Option (List Int) :=
  mapOption (fun tok => (pyInt (pyTrim ⟨tok⟩)).map (fun n => n - 1))
    (splitOnChar selection.data (Char.ofNat 44))

/-- The list comprehension [profiles[i] for i in indices if 0 <= i < len(profiles)]:
out-of-range indices are silently dropped, duplicates are kept. -/
def selectedProfiles (profiles : List SenderProfile) (indices : List Int) :
    List SenderProfile :=
  indices.filterMap
    (fun i =>
      if 0 ≤ i ∧ i < (profiles.length : Int) then some (profiles.getD i.toNat default)
      else none)

/-- Message-id resolution: extend all_message_ids with the cached ids of
each selected sender, in order. -/
def allMessageIds (ids_for : String → List String) (selected : List SenderProfile) :
    List String :=
  (selected.map (fun p => ids_for p.email)).flatten

/-! ## Batched trash (gmail_client.py trash_messages) -/

/-- Loop body of trash_messages: batch_num ranges over range(total_batches)
(fuel counts the remaining iterations), chunk = ids[start:end], empty chunk
breaks, otherwise the batch is submitted, the acknowledged count
accumulates, and the callback fires with (batch_num + 1, total_batches).
Returns (trashed, submitted chunks, callback invocations). -/
def trashLoop (ids : List String) (totalB : Nat) (batchNum : Nat) (fuel : Nat)
    (trashed : Nat) (chunks : List (List String)) (calls : List (Nat × Nat)) :
    Nat × List (List String) × List (Nat × Nat) :=
  match fuel with
  | 0 => (trashed, chunks, calls)
  | fuel2 + 1 =>
    let start := batchNum * TRASH_BATCH_SIZE
    let stop := min (start + TRASH_BATCH_SIZE) ids.length
    let chunk := (ids.drop start).take (stop - start)
    if chunk.isEmpty then (trashed, chunks, calls)
    else
      trashLoop ids totalB (batchNum + 1) fuel2 (trashed + chunk.length)
        (chunks ++ [chunk]) (calls ++ [(batchNum + 1, totalB)])

/-- trash_messages from gmail_client.py, with the submitted chunks and the
callback invocations made observable. -/
def trash_messages (ids : List String) : Nat × List (List String) × List (Nat × Nat) :=
  let totalB := max 1 ((ids.length + TRASH_BATCH_SIZE - 1) / TRASH_BATCH_SIZE)
  trashLoop ids totalB 0 totalB 0 [] []

/-- Summary triple (selected_senders, total_messages, trashed) returned by
interactive_clean for a non-empty candidate list, a typed selection, the
cached per-sender id lookup, the execute flag, and the confirmation
outcome. -/
def interactiveSummary (candidates : List SenderProfile) (typed : String)
    (ids_for : String → List String) (execute confirmed : Bool) : Nat × Nat × Nat :=
  if candidates.isEmpty then (0, 0, 0)
  else
    let selection := pyTrim typed
    if lowerString selection == "q" then (0, 0, 0)
    else
      let selectedOpt : Option (List SenderProfile) :=
        if lowerString selection == "all" then some candidates
        else (parseIndices selection).map (selectedProfiles candidates)
      match selectedOpt with
      | none => (0, 0, 0)
      | some selected =>
        if selected.isEmpty then (0, 0, 0)
        else
          let ids := allMessageIds ids_for selected
          if !execute then (selected.length, ids.length, 0)
          else if !confirmed then (selected.length, ids.length, 0)
          else (selected.length, ids.length, (trash_messages ids).1)

/-- The consecutive ≤ TRASH_BATCH_SIZE partition of a list, used to state
what the trash loop submits. -/
def chunksSpec : List String → List (List String)
  | [] => []
  | x :: xs =>
    (x :: xs).take TRASH_BATCH_SIZE :: chunksSpec ((x :: xs).drop TRASH_BATCH_SIZE)
termination_by l => l.length
decreasing_by
  simp only [List.length_drop, List.length_cons, TRASH_BATCH_SIZE]
  omega

theorem chunksSpec_flatten_aux :
    ∀ n (l : List String), l.length ≤ n → (chunksSpec l).flatten = l := by
  intro n
  induction n with
  | zero =>
    intro l h
    have : l = [] := List.eq_nil_of_length_eq_zero (Nat.le_zero.mp h)
    subst this
    simp [chunksSpec]
  | succ n ih =>
    intro l h
    cases l with
    | nil => simp [chunksSpec]
    | cons x xs =>
      rw [chunksSpec]
      rw [List.flatten_cons]
      rw [ih ((x :: xs).drop TRASH_BATCH_SIZE)
        (by simp [TRASH_BATCH_SIZE] at h ⊢; omega)]
      exact List.take_append_drop _ _

theorem chunksSpec_flatten (l : List String) : (chunksSpec l).flatten = l :=
  chunksSpec_flatten_aux l.length l le_rfl

theorem chunksSpec_sizes_aux :
    ∀ n (l : List String), l.length ≤ n →
      (chunksSpec l).all (fun c => decide (c.length ≤ TRASH_BATCH_SIZE)) = true := by
  intro n
  induction n with
  | zero =>
    intro l h
    have : l = [] := List.eq_nil_of_length_eq_zero (Nat.le_zero.mp h)
    subst this
    simp [chunksSpec]
  | succ n ih =>
    intro l h
    cases l with
    | nil => simp [chunksSpec]
    | cons x xs =>
      rw [chunksSpec]
      rw [List.all_cons]
      rw [ih ((x :: xs).drop TRASH_BATCH_SIZE)
        (by simp [TRASH_BATCH_SIZE] at h ⊢; omega)]
      simp [List.length_take]

theorem chunksSpec_sizes (l : List String) :
    (chunksSpec l).all (fun c => decide (c.length ≤ TRASH_BATCH_SIZE)) = true :=
  chunksSpec_sizes_aux l.length l le_rfl

theorem chunksSpec_count_aux :
    ∀ n (l : List String), l.length ≤ n →
      (chunksSpec l).length = (l.length + TRASH_BATCH_SIZE - 1) / TRASH_BATCH_SIZE := by
  intro n
  induction n with
  | zero =>
    intro l h
    have : l = [] := List.eq_nil_of_length_eq_zero (Nat.le_zero.mp h)
    subst this
    simp [chunksSpec, TRASH_BATCH_SIZE]
  | succ n ih =>
    intro l h
    cases l with
    | nil => simp [chunksSpec, TRASH_BATCH_SIZE]
    | cons x xs =>
      rw [chunksSpec]
      rw [List.length_cons]
      rw [ih ((x :: xs).drop TRASH_BATCH_SIZE)
        (by simp [TRASH_BATCH_SIZE] at h ⊢; omega)]
      simp only [List.length_drop, List.length_cons, TRASH_BATCH_SIZE]
      omega

theorem chunksSpec_count (l : List String) :
    (chunksSpec l).length = (l.length + TRASH_BATCH_SIZE - 1) / TRASH_BATCH_SIZE :=
  chunksSpec_count_aux l.length l le_rfl

theorem trashLoop_spec (ids : List String) (totalB : Nat) :
    ∀ (fuel b t : Nat) (ch : List (List String)) (ca : List (Nat × Nat)),
      ids.length ≤ (b + fuel) * TRASH_BATCH_SIZE →
      trashLoop ids totalB b fuel t ch ca =
        (t + (ids.drop (b * TRASH_BATCH_SIZE)).length,
         ch ++ chunksSpec (ids.drop (b * TRASH_BATCH_SIZE)),
         ca ++ (List.range (chunksSpec (ids.drop (b * TRASH_BATCH_SIZE))).length).map
            (fun i => (b + i + 1, totalB))) := by
  intro fuel
  induction fuel with
  | zero =>
    intro b t ch ca h
    have hnil : ids.drop (b * TRASH_BATCH_SIZE) = [] :=
      List.drop_eq_nil_of_le (by simpa using h)
    simp [trashLoop, hnil, chunksSpec]
  | succ fuel ih =>
    intro b t ch ca h
    rw [trashLoop]
    cases hrem : ids.drop (b * TRASH_BATCH_SIZE) with
    | nil =>
      have hle : ids.length ≤ b * TRASH_BATCH_SIZE := by
        have := congrArg List.length hrem
        simp [List.length_drop] at this
        omega
      have hstop : min (b * TRASH_BATCH_SIZE + TRASH_BATCH_SIZE) ids.length
          - b * TRASH_BATCH_SIZE = 0 := by omega
      simp [hrem, hstop, chunksSpec]
    | cons x xs =>
      have hlen : ids.length - b * TRASH_BATCH_SIZE = xs.length + 1 := by
        have := congrArg List.length hrem
        simpa [List.length_drop] using this
      have hchunk :
          (x :: xs).take
              (min (b * TRASH_BATCH_SIZE + TRASH_BATCH_SIZE) ids.length
                - b * TRASH_BATCH_SIZE) =
            (x :: xs).take TRASH_BATCH_SIZE := by
        apply List.take_eq_take.mpr
        simp only [List.length_cons]
        omega
      rw [hchunk]
      have hne : ((x :: xs).take TRASH_BATCH_SIZE).isEmpty = false := by
        simp [TRASH_BATCH_SIZE]
      rw [hne]
      simp only [Bool.false_eq_true, if_false]
      rw [ih (b + 1) (t + ((x :: xs).take TRASH_BATCH_SIZE).length)
        (ch ++ [(x :: xs).take TRASH_BATCH_SIZE]) (ca ++ [(b + 1, totalB)])
        (by have harith : b + 1 + fuel = b + (fuel + 1) := by omega
            rw [harith]; exact h)]
      have hdrop2 : ids.drop ((b + 1) * TRASH_BATCH_SIZE) =
          (x :: xs).drop TRASH_BATCH_SIZE := by
        have harith : (b + 1) * TRASH_BATCH_SIZE = b * TRASH_BATCH_SIZE + TRASH_BATCH_SIZE := by
          ring
        rw [harith, ← List.drop_drop, hrem]
      rw [hdrop2]
      simp only [Prod.mk.injEq]
      refine ⟨?_, ?_, ?_⟩
      · simp only [List.length_take, List.length_drop, List.length_cons,
          TRASH_BATCH_SIZE] <;> omega
      · conv_rhs => rw [chunksSpec]
        simp [List.append_assoc]
      · conv_rhs => rw [chunksSpec]
        rw [List.length_cons, List.range_succ_eq_map]
        simp only [List.map_cons, List.map_map, List.append_assoc, List.singleton_append]
        have hmap :
            (List.range (chunksSpec ((x :: xs).drop TRASH_BATCH_SIZE)).length).map
                (fun i => (b + 1 + i + 1, totalB)) =
              (List.range (chunksSpec ((x :: xs).drop TRASH_BATCH_SIZE)).length).map
                ((fun i => (b + i + 1, totalB)) ∘ Nat.succ) := by
          apply List.map_congr_left
          intro i hi
          simp only [Function.comp_apply]
          exact congrArg (fun n => (n, totalB)) (by omega)
        rw [hmap]

theorem trash_messages_eq (ids : List String) :
    trash_messages ids =
      (ids.length, chunksSpec ids,
        (List.range (chunksSpec ids).length).map
          (fun i =>
            (i + 1, max 1 ((ids.length + TRASH_BATCH_SIZE - 1) / TRASH_BATCH_SIZE)))) := by
  have hfuel : ids.length ≤
      (0 + max 1 ((ids.length + TRASH_BATCH_SIZE - 1) / TRASH_BATCH_SIZE)) *
        TRASH_BATCH_SIZE := by
    simp only [Nat.zero_add, TRASH_BATCH_SIZE]
    omega
  have hspec := trashLoop_spec ids
    (max 1 ((ids.length + TRASH_BATCH_SIZE - 1) / TRASH_BATCH_SIZE))
    (max 1 ((ids.length + TRASH_BATCH_SIZE - 1) / TRASH_BATCH_SIZE)) 0 0 [] [] hfuel
  unfold trash_messages
  rw [hspec]
  simp

/-- C9: trash_messages partitions the ids in order into consecutive batches
of at most 1000, accumulates each batch's acknowledged count into the
returned total (equal to the input length), and fires the callback exactly
once per completed non-empty batch with (completed_batches, total_batches);
consequently selecting "all" in the cleanup and confirming reports a
trashed count equal to the total number of resolved message ids. -/
theorem claim_c9_trash_messages (ids : List String) :
    (trash_messages ids).1 = ids.length ∧
      (trash_messages ids).2.1.flatten = ids ∧
      (trash_messages ids).2.1.all (fun c => decide (c.length ≤ TRASH_BATCH_SIZE)) = true ∧
      (trash_messages ids).2.1.length =
        (ids.length + TRASH_BATCH_SIZE - 1) / TRASH_BATCH_SIZE ∧
      (trash_messages ids).2.2 =
        (List.range (trash_messages ids).2.1.length).map
          (fun i => (i + 1, max 1 ((ids.length + TRASH_BATCH_SIZE - 1) / TRASH_BATCH_SIZE))) ∧
      (∀ (candidates : List SenderProfile) (ids_for : String → List String),
        (interactiveSummary candidates "all" ids_for true true).2.2 =
          (allMessageIds ids_for candidates).length) := by
  rw [trash_messages_eq ids]
  refine ⟨rfl, chunksSpec_flatten ids, chunksSpec_sizes ids, chunksSpec_count ids, rfl, ?_⟩
  intro candidates ids_for
  cases hc : candidates.isEmpty with
  | true =>
    have : candidates = [] := List.isEmpty_iff.mp hc
    subst this
    simp [interactiveSummary, allMessageIds]
  | false =>
    have h1 : (lowerString (pyTrim "all") == "q") = false := by decide
    have h2 : (lowerString (pyTrim "all") == "all") = true := by decide
    simp only [interactiveSummary, hc, h1, h2, Bool.false_eq_true, if_false, if_true,
      Bool.not_true]
    rw [trash_messages_eq (allMessageIds ids_for candidates)]

theorem selectedProfiles_nil (idxs : List Int) : selectedProfiles [] idxs = [] := by
  induction idxs with
  | nil => rfl
  | cons i rest ih =>
    simp only [selectedProfiles, List.filterMap_cons] at ih ⊢
    rw [if_neg (by simp)]
    exact ih

theorem selectedProfiles_append (profiles : List SenderProfile) (l1 l2 : List Int) :
    selectedProfiles profiles (l1 ++ l2) =
      selectedProfiles profiles l1 ++ selectedProfiles profiles l2 :=
  List.filterMap_append _ _ _

theorem selectedProfiles_cons_inRange (profiles : List SenderProfile) (i : Int)
    (rest : List Int) (h0 : 0 ≤ i) (hlt : i < (profiles.length : Int)) :
    selectedProfiles profiles (i :: rest) =
      profiles.getD i.toNat default :: selectedProfiles profiles rest := by
  simp only [selectedProfiles, List.filterMap_cons]
  rw [if_pos ⟨h0, hlt⟩]

theorem selectedProfiles_replicate (profiles : List SenderProfile) (k : Nat) (i : Int)
    (h0 : 0 ≤ i) (hlt : i < (profiles.length : Int)) :
    selectedProfiles profiles (List.replicate k i) =
      List.replicate k (profiles.getD i.toNat default) := by
  induction k with
  | zero => rfl
  | succ k ih =>
    rw [List.replicate_succ, List.replicate_succ,
      selectedProfiles_cons_inRange profiles i _ h0 hlt, ih]

/-- C10: an in-range 1-based index repeated in the selection is not
deduplicated — each occurrence selects the profile again and appends its
cached message ids again, so the resolved id count multiplies. -/
theorem claim_c10_duplicate_indices (profiles : List SenderProfile)
    (ids_for : String → List String) (k : Nat) (i : Int) (pre post : List Int)
    (h0 : 0 ≤ i) (hlt : i < (profiles.length : Int)) :
    selectedProfiles profiles (pre ++ i :: post) =
        selectedProfiles profiles pre ++
          profiles.getD i.toNat default :: selectedProfiles profiles post ∧
      selectedProfiles profiles (List.replicate k i) =
        List.replicate k (profiles.getD i.toNat default) ∧
      (allMessageIds ids_for (selectedProfiles profiles (List.replicate k i))).length =
        k * (ids_for (profiles.getD i.toNat default).email).length := by
  refine ⟨?_, selectedProfiles_replicate profiles k i h0 hlt, ?_⟩
  · rw [selectedProfiles_append, selectedProfiles_cons_inRange profiles i post h0 hlt]
  · rw [selectedProfiles_replicate profiles k i h0 hlt]
    induction k with
    | zero => simp [allMessageIds]
    | succ k ih =>
      rw [List.replicate_succ]
      simp only [allMessageIds, List.map_cons, List.flatten_cons,
        List.length_append] at ih ⊢
      rw [ih]
      ring

/-- Candidate list for the selection demos. -/
def demoCandidates : List SenderProfile := [demoOnlyUnsub, demoAllSignals]

/-- Cached per-sender message-id lookup for the selection demos. -/
def demoIdsFor : String → List String :=
  fun e => if e = "alice@example.com" then ["m1", "m3", "m4"] else []

/-- Witness for the C10 theorem: index 1 twice selects the first profile
twice and doubles the resolved id count. -/
theorem claim_c10_duplicate_indices_witness :
    ((0:Int) ≤ 0 ∧ (0:Int) < (demoCandidates.length : Int)) ∧
      (selectedProfiles demoCandidates ([] ++ (0:Int) :: [(0:Int)]) =
          selectedProfiles demoCandidates [] ++
            demoCandidates.getD (0:Int).toNat default ::
              selectedProfiles demoCandidates [(0:Int)] ∧
        selectedProfiles demoCandidates (List.replicate 2 (0:Int)) =
          List.replicate 2 (demoCandidates.getD (0:Int).toNat default) ∧
        (allMessageIds demoIdsFor
            (selectedProfiles demoCandidates (List.replicate 2 (0:Int)))).length =
          2 * (demoIdsFor (demoCandidates.getD (0:Int).toNat default).email).length) :=
  ⟨⟨by decide, by decide⟩,
   claim_c10_duplicate_indices demoCandidates demoIdsFor 2 0 [] [0] (by decide) (by decide)⟩

theorem mapOption_eq_none_iff {α β : Type} (f : α → Option β) (l : List α) :
    (mapOption f l = none) ↔ l.any (fun a => (f a).isNone) = true := by
  induction l with
  | nil => simp [mapOption]
  | cons a l ih =>
    cases hfa : f a with
    | none => simp [mapOption, hfa]
    | some b =>
      simp only [mapOption, hfa, List.any_cons, Option.isNone_some, Bool.false_or]
      cases hml : mapOption f l with
      | none => simpa [hml] using ih
      | some bs => simpa [hml] using ih

theorem parseIndices_eq_none_iff (s : String) :
    parseIndices s = none ↔
      (splitOnChar s.data (Char.ofNat 44)).any
        (fun tok => (pyInt (pyTrim ⟨tok⟩)).isNone) = true := by
  unfold parseIndices
  rw [mapOption_eq_none_iff]
  constructor <;> intro h <;>
    (rw [List.any_eq_true] at h ⊢
     obtain ⟨tok, htok, hh⟩ := h
     refine ⟨tok, htok, ?_⟩
     simpa using hh)

/-- C1 (amended): a selection that is not "all"/"q" is invalidated as a
whole — abort with the zero summary — when any comma token is non-numeric;
an out-of-range numeric token, however, is silently dropped and the
remaining in-range tokens are still selected (and an all-dropped or empty
selection also yields the zero summary). -/
theorem claim_c1_selection_validation (candidates : List SenderProfile) (typed : String)
    (ids_for : String → List String) (execute confirmed : Bool)
    (hall : (lowerString (pyTrim typed) == "all") = false)
    (hq : (lowerString (pyTrim typed) == "q") = false) :
    ((splitOnChar (pyTrim typed).data (Char.ofNat 44)).any
        (fun tok => (pyInt (pyTrim ⟨tok⟩)).isNone) = true →
      interactiveSummary candidates typed ids_for execute confirmed = (0, 0, 0)) ∧
      (∀ idxs, parseIndices (pyTrim typed) = some idxs →
        selectedProfiles candidates idxs = [] →
          interactiveSummary candidates typed ids_for execute confirmed = (0, 0, 0)) ∧
      (∀ idxs, parseIndices (pyTrim typed) = some idxs →
        (interactiveSummary candidates typed ids_for execute confirmed).1 =
          (selectedProfiles candidates idxs).length) := by
  refine ⟨?_, ?_, ?_⟩
  · intro hany
    have hnone : parseIndices (pyTrim typed) = none :=
      (parseIndices_eq_none_iff (pyTrim typed)).mpr hany
    cases hc : candidates.isEmpty <;>
      simp [interactiveSummary, hc, hall, hq, hnone]
  · intro idxs hsome hempty
    cases hc : candidates.isEmpty <;>
      simp [interactiveSummary, hc, hall, hq, hsome, hempty]
  · intro idxs hsome
    cases hc : candidates.isEmpty with
    | true =>
      have hcand : candidates = [] := List.isEmpty_iff.mp hc
      subst hcand
      simp [interactiveSummary, selectedProfiles_nil]
    | false =>
      cases hsel : (selectedProfiles candidates idxs).isEmpty with
      | true =>
        have : selectedProfiles candidates idxs = [] := List.isEmpty_iff.mp hsel
        rw [this]
        simp [interactiveSummary, hc, hall, hq, hsome, this]
      | false =>
        cases execute <;> cases confirmed <;>
          simp [interactiveSummary, hc, hall, hq, hsome, hsel]

/-- Twelve ranked candidates, so that the 1-based selection "1_0"
(PEP 515 for 10) is in range. -/
def demoManyCandidates : List SenderProfile := List.replicate 12 demoOnlyUnsub

/-- Witness for the amended C1 theorem: the non-numeric token "abc"
invalidates the whole selection, while tokens int() does parse —
underscore-grouped numerals, non-ASCII decimal digits, Unicode
whitespace — are accepted and selected, not fail-closed. -/
theorem claim_c1_selection_validation_witness :
    (lowerString (pyTrim "0,abc") == "all") = false ∧
      (lowerString (pyTrim "0,abc") == "q") = false ∧
      (splitOnChar (pyTrim "0,abc").data (Char.ofNat 44)).any
        (fun tok => (pyInt (pyTrim ⟨tok⟩)).isNone) = true ∧
      interactiveSummary demoCandidates "0,abc" demoIdsFor true true = (0, 0, 0) ∧
      pyInt "1_0" = some 10 ∧
      pyInt "٤٢" = some 42 ∧
      pyInt " 5 " = some 5 ∧
      pyTrim " 7\u001C" = "7" ∧
      parseIndices (pyTrim "1_0") = some [9] ∧
      (interactiveSummary demoManyCandidates "1_0" demoIdsFor true true).1 =
        (selectedProfiles demoManyCandidates [9]).length :=
  ⟨by decide, by decide, by decide,
   (claim_c1_selection_validation demoCandidates "0,abc" demoIdsFor true true (by decide)
     (by decide)).1 (by decide),
   by decide, by decide, by decide, by decide, by decide,
   (claim_c1_selection_validation demoManyCandidates "1_0" demoIdsFor true true (by decide)
     (by decide)).2.2 [9] (by decide)⟩

/-- Counterexample to C1 as stated: with two ranked candidates, the
selection "1,5" has the out-of-range token "5", yet the operation does not
abort — the in-range index 1 is still selected (one sender, its three
cached messages trashed), contradicting the claimed zero-selected,
zero-trashed abort. -/
theorem claim_c1_counterexample :
    (lowerString (pyTrim "1,5") == "all") = false ∧
      (lowerString (pyTrim "1,5") == "q") = false ∧
      parseIndices (pyTrim "1,5") = some [0, 4] ∧
      demoCandidates.length = 2 ∧
      interactiveSummary demoCandidates "1,5" demoIdsFor true true = (1, 3, 3) ∧
      (interactiveSummary demoCandidates "1,5" demoIdsFor true true).1 ≠ 0 := by
  decide

/-! ## Scan cache (cache.py ScanCache)

The three SQLite tables are embedded as row lists in insertion (rowid)
order; AUTOINCREMENT is the next_id counter; ORDER BY id DESC LIMIT 1 picks
the row with the greatest id; a SELECT without ORDER BY returns rows in
insertion order; the JSON round-trip of sample_subjects and labels is the
identity. -/

/-- A scan_metadata row. -/
structure ScanMetaRow where
  id : Nat
  query : String
  total_messages : Nat
  scan_date : String
deriving DecidableEq, Inhabited

/-- A senders row (sample_subjects_json decoded). -/
structure SenderRow where
  scan_id : Nat
  email : String
  name : String
  message_count : Nat
  score : ℚ
  sample_subjects : List String
deriving DecidableEq, Inhabited

/-- A messages row (labels_json decoded). -/
structure MessageRow where
  scan_id : Nat
  message_id : String
  sender_email : String
  subject : String
  has_list_unsubscribe : Bool
  precedence : String
  labels : List String
  date : String
deriving DecidableEq, Inhabited

/-- The SQLite database backing one ScanCache. -/
structure CacheState where
  next_id : Nat
  scan_metadata : List ScanMetaRow
  senders : List SenderRow
  messages : List MessageRow
deriving DecidableEq, Inhabited

/-- The senders-table row written for one profile. -/
def senderRowOf (id : Nat) (p : SenderProfile) : SenderRow :=
  ⟨id, p.email, p.name, p.message_count, p.score, p.sample_subjects⟩

/-- The messages-table row written for one message. -/
def msgRowOf (id : Nat) (m : MessageMeta) : MessageRow :=
  ⟨id, m.message_id, m.sender_email, m.subject, m.has_list_unsubscribe,
   m.precedence, m.labels, m.date⟩

/-- The MessageMeta rebuilt from a messages row (sender header not stored). -/
def metaOfRow (r : MessageRow) : MessageMeta :=
  ⟨r.message_id, "", r.sender_email, r.subject, r.labels,
   r.has_list_unsubscribe, r.precedence, r.date⟩

/-- ScanCache.save_scan: one scan_metadata row, then per profile one
senders row and its messages rows, all in a single transaction. -/
def save_scan (st : CacheState) (sr : ScanResult) : CacheState :=
  let id := st.next_id
  { next_id := id + 1,
    scan_metadata :=
      st.scan_metadata ++ [⟨id, sr.query, sr.total_messages, sr.scan_date⟩],
    senders := st.senders ++ sr.senders.map (fun kv => senderRowOf id kv.2),
    messages :=
      st.messages ++
        (sr.senders.map (fun kv => kv.2.messages.map (msgRowOf id))).flatten }

/-- SELECT * FROM scan_metadata ORDER BY id DESC LIMIT 1. -/
def latestRow : List ScanMetaRow → Option ScanMetaRow
  | [] => none
  | r :: rs =>
    match latestRow rs with
    | none => some r
    | some r2 => some (if r.id < r2.id then r2 else r)

/-- ScanCache.load_latest_scan: pick the most recent scan (optionally
filtered by exact query match), collect its sender and message rows, group
the messages by sender_email, and rebuild the ScanResult.  row["query"] or
"" is the identity on the stored (non-null) query string. -/
def load_latest_scan (st : CacheState) (query : Option String) : Option ScanResult :=
  let row? :=
    match query with
    | some q => latestRow (st.scan_metadata.filter (fun r => r.query == q))
    | none => latestRow st.scan_metadata
  match row? with
  | none => none
  | some row =>
    let sender_rows := st.senders.filter (fun s => s.scan_id == row.id)
    let message_rows := st.messages.filter (fun m => m.scan_id == row.id)
    let msgsFor : String → List MessageMeta := fun e =>
      (message_rows.filter (fun m => m.sender_email == e)).map metaOfRow
    let senders := sender_rows.map (fun s =>
      (s.email,
        SenderProfile.mk s.email s.name s.message_count (msgsFor s.email)
          s.score s.sample_subjects))
    some (ScanResult.mk row.total_messages senders row.scan_date row.query)

/-- Wellformedness of a cache state: every stored row belongs to an
already-allocated scan id. -/
def CacheWF (st : CacheState) : Prop :=
  (∀ r ∈ st.scan_metadata, r.id < st.next_id) ∧
    (∀ s ∈ st.senders, s.scan_id < st.next_id) ∧
    (∀ m ∈ st.messages, m.scan_id < st.next_id)

/-- Key discipline of a ScanResult built by the scanner: dict keys are
unique, each profile is stored under its own email, and (as C8 assumes)
each profile's messages carry the profile's own email. -/
def ScanKeysOK (sr : ScanResult) : Prop :=
  (sr.senders.map Prod.fst).Nodup ∧
    ∀ kv ∈ sr.senders, kv.2.email = kv.1 ∧ ∀ m ∈ kv.2.messages, m.sender_email = kv.1

theorem latestRow_cons (r : ScanMetaRow) (l : List ScanMetaRow) :
    latestRow (r :: l) =
      match latestRow l with
      | none => some r
      | some r2 => some (if r.id < r2.id then r2 else r) := rfl

theorem latestRow_append_max (rows : List ScanMetaRow) (newRow : ScanMetaRow)
    (h : ∀ r ∈ rows, r.id < newRow.id) :
    latestRow (rows ++ [newRow]) = some newRow := by
  induction rows with
  | nil => rfl
  | cons r rs ih =>
    have hrs : ∀ x ∈ rs, x.id < newRow.id := fun x hx => h x (List.mem_cons_of_mem r hx)
    rw [List.cons_append, latestRow_cons, ih hrs]
    simp [h r (List.mem_cons_self _ _)]

theorem filter_append_fresh {α : Type} (p : α → Bool) (old new : List α)
    (hold : ∀ a ∈ old, p a = false) (hnew : ∀ a ∈ new, p a = true) :
    (old ++ new).filter p = new := by
  rw [List.filter_append]
  rw [List.filter_eq_nil_iff.mpr (by intro a ha; simp [hold a ha])]
  rw [List.filter_eq_self.mpr hnew]
  rfl

theorem filter_msg_blocks_notMem (id : Nat) (senders : List (String × SenderProfile))
    (k : String)
    (hmail : ∀ kv ∈ senders, ∀ m ∈ kv.2.messages, m.sender_email = kv.1)
    (hk : k ∉ senders.map Prod.fst) :
    ((senders.map (fun kv => kv.2.messages.map (msgRowOf id))).flatten).filter
      (fun r => r.sender_email == k) = [] := by
  induction senders with
  | nil => rfl
  | cons kv rest ih =>
    simp only [List.map_cons, List.flatten_cons, List.filter_append]
    have hk1 : kv.1 ≠ k := by
      intro hh
      exact hk (by simp [← hh])
    have hrest : k ∉ rest.map Prod.fst := fun hh => hk (by simp [hh])
    rw [ih (fun kv2 h2 => hmail kv2 (List.mem_cons_of_mem kv h2)) hrest]
    rw [List.filter_eq_nil_iff.mpr, List.append_nil]
    intro r hr
    rw [List.mem_map] at hr
    obtain ⟨m, hm, hrm⟩ := hr
    have := hmail kv (List.mem_cons_self _ _) m hm
    subst hrm
    simp [msgRowOf, this, hk1]

theorem filter_msg_blocks (id : Nat) (senders : List (String × SenderProfile))
    (k : String) (p : SenderProfile)
    (hnd : (senders.map Prod.fst).Nodup)
    (hmail : ∀ kv ∈ senders, ∀ m ∈ kv.2.messages, m.sender_email = kv.1)
    (hmem : (k, p) ∈ senders) :
    ((senders.map (fun kv => kv.2.messages.map (msgRowOf id))).flatten).filter
      (fun r => r.sender_email == k) = p.messages.map (msgRowOf id) := by
  induction senders with
  | nil => exact absurd hmem (List.not_mem_nil _)
  | cons kv rest ih =>
    have hnd2 : kv.1 ∉ rest.map Prod.fst ∧ (rest.map Prod.fst).Nodup := by
      rw [List.map_cons, List.nodup_cons] at hnd
      exact hnd
    simp only [List.map_cons, List.flatten_cons, List.filter_append]
    rcases List.mem_cons.mp hmem with hhead | htail
    · subst hhead
      rw [List.filter_eq_self.mpr]
      · rw [filter_msg_blocks_notMem id rest k
          (fun kv2 h2 => hmail kv2 (List.mem_cons_of_mem _ h2)) hnd2.1]
        rw [List.append_nil]
      · intro r hr
        rw [List.mem_map] at hr
        obtain ⟨m, hm, hrm⟩ := hr
        have := hmail (k, p) (List.mem_cons_self _ _) m hm
        subst hrm
        simp [msgRowOf, this]
    · have hk1 : kv.1 ≠ k := by
        intro hh
        exact hnd2.1 (by
          rw [hh]
          exact List.mem_map.mpr ⟨(k, p), htail, rfl⟩)
      rw [List.filter_eq_nil_iff.mpr, List.nil_append]
      · exact ih hnd2.2 (fun kv2 h2 => hmail kv2 (List.mem_cons_of_mem _ h2)) htail
      · intro r hr
        rw [List.mem_map] at hr
        obtain ⟨m, hm, hrm⟩ := hr
        have := hmail kv (List.mem_cons_self _ _) m hm
        subst hrm
        simp [msgRowOf, this, hk1]

/-- C8: saving a ScanResult whose profiles' messages carry the profile's own
email and loading the latest snapshot (no query filter) reconstructs
identical total_messages and query, and, sender by sender, identical key,
name, message_count, score, sample_subjects, and message-id list. -/
theorem claim_c8_roundtrip (st : CacheState) (sr : ScanResult)
    (hwf : CacheWF st) (hkeys : ScanKeysOK sr) :
    ∃ sr2, load_latest_scan (save_scan st sr) none = some sr2 ∧
      sr2.total_messages = sr.total_messages ∧
      sr2.query = sr.query ∧
      List.Forall₂
        (fun kv kv2 : String × SenderProfile =>
          kv2.1 = kv.1 ∧ kv2.2.name = kv.2.name ∧
            kv2.2.message_count = kv.2.message_count ∧
            kv2.2.score = kv.2.score ∧
            kv2.2.sample_subjects = kv.2.sample_subjects ∧
            kv2.2.messages.map (fun m => m.message_id) =
              kv.2.messages.map (fun m => m.message_id))
        sr.senders sr2.senders := by
  obtain ⟨hwf1, hwf2, hwf3⟩ := hwf
  obtain ⟨hnd, hok⟩ := hkeys
  have hmeta : latestRow ((save_scan st sr).scan_metadata) =
      some ⟨st.next_id, sr.query, sr.total_messages, sr.scan_date⟩ := by
    unfold save_scan
    exact latestRow_append_max _ _ (fun r hr => hwf1 r hr)
  have hsrows : (save_scan st sr).senders.filter
      (fun s => s.scan_id == st.next_id) =
        sr.senders.map (fun kv => senderRowOf st.next_id kv.2) := by
    unfold save_scan
    apply filter_append_fresh
    · intro a ha
      have := hwf2 a ha
      simp only [beq_eq_false_iff_ne, ne_eq]
      omega
    · intro a ha
      rw [List.mem_map] at ha
      obtain ⟨kv, -, hkv⟩ := ha
      subst hkv
      simp [senderRowOf]
  have hmrows : (save_scan st sr).messages.filter
      (fun m => m.scan_id == st.next_id) =
        (sr.senders.map (fun kv => kv.2.messages.map (msgRowOf st.next_id))).flatten := by
    unfold save_scan
    apply filter_append_fresh
    · intro a ha
      have := hwf3 a ha
      simp only [beq_eq_false_iff_ne, ne_eq]
      omega
    · intro a ha
      rw [List.mem_flatten] at ha
      obtain ⟨block, hb, hab⟩ := ha
      rw [List.mem_map] at hb
      obtain ⟨kv, -, hkv⟩ := hb
      subst hkv
      rw [List.mem_map] at hab
      obtain ⟨m, -, hm⟩ := hab
      subst hm
      simp [msgRowOf]
  have hload : load_latest_scan (save_scan st sr) none =
      some (ScanResult.mk sr.total_messages
        ((sr.senders.map (fun kv => senderRowOf st.next_id kv.2)).map (fun s =>
          (s.email,
            SenderProfile.mk s.email s.name s.message_count
              ((((sr.senders.map
                    (fun kv => kv.2.messages.map (msgRowOf st.next_id))).flatten).filter
                  (fun m => m.sender_email == s.email)).map metaOfRow)
              s.score s.sample_subjects)))
        sr.scan_date sr.query) := by
    simp only [load_latest_scan, hmeta, hsrows, hmrows]
  refine ⟨_, hload, rfl, rfl, ?_⟩
  · rw [List.map_map]
    rw [List.forall₂_map_right_iff]
    apply List.forall₂_same.mpr
    intro kv hkv
    obtain ⟨hemail, hmail⟩ := hok kv hkv
    dsimp only [Function.comp, senderRowOf]
    refine ⟨hemail, rfl, rfl, rfl, rfl, ?_⟩
    have hblocks := filter_msg_blocks st.next_id sr.senders kv.1 kv.2 hnd
      (fun kv2 h2 => (hok kv2 h2).2) (by
        rw [show (kv.1, kv.2) = kv from rfl]
        exact hkv)
    rw [hemail, hblocks, List.map_map, List.map_map]
    apply List.map_congr_left
    intro m hm
    simp [metaOfRow, msgRowOf, Function.comp]

/-- A freshly created cache database (AUTOINCREMENT starts at 1). -/
def emptyCache : CacheState := ⟨1, [], [], []⟩

/-- Demo scan result saved and reloaded in the C8 witness. -/
def demoScan : ScanResult :=
  { total_messages := 3, senders := [("alice@example.com", demoAliceProfile)],
    scan_date := "2026-01-01T00:00:00", query := "" }

/-- Witness for the C8 theorem at a fresh cache and the demo scan. -/
theorem claim_c8_roundtrip_witness :
    CacheWF emptyCache ∧ ScanKeysOK demoScan ∧
      (∃ sr2, load_latest_scan (save_scan emptyCache demoScan) none = some sr2 ∧
        sr2.total_messages = demoScan.total_messages ∧
        sr2.query = demoScan.query ∧
        List.Forall₂
          (fun kv kv2 : String × SenderProfile =>
            kv2.1 = kv.1 ∧ kv2.2.name = kv.2.name ∧
              kv2.2.message_count = kv.2.message_count ∧
              kv2.2.score = kv.2.score ∧
              kv2.2.sample_subjects = kv.2.sample_subjects ∧
              kv2.2.messages.map (fun m => m.message_id) =
                kv.2.messages.map (fun m => m.message_id))
          demoScan.senders sr2.senders) := by
  have hwf : CacheWF emptyCache :=
    ⟨fun r hr => absurd hr (List.not_mem_nil _),
     fun s hs => absurd hs (List.not_mem_nil _),
     fun m hm => absurd hm (List.not_mem_nil _)⟩
  have hkeys : ScanKeysOK demoScan := by
    unfold ScanKeysOK
    decide
  exact ⟨hwf, hkeys, claim_c8_roundtrip emptyCache demoScan hwf hkeys⟩

end GmailSpamCleaner
